import Mathlib

/-! # Parameter identifier registry of the arrow primitive

Shallow embedding of `res/description/oarrow.h`.  The header consists of one
anonymous C `enum` with twelve enumerators, each given an explicit `int` value:

    enum
    {
        Oarrow                        = 1062186,
        OARROW_LENGTH                 = 1000,
        OARROW_ROTATION_SEGMENTS      = 1001,
        OARROW_BASE                   = 2000,
        OARROW_BASE_RADIUS            = 2001,
        OARROW_TIP                    = 3000,
        OARROW_TIP_RADIUS             = 3001,
        OARROW_TIP_LENGTH             = 3002,
        OARROW_BEVEL                  = 4000,
        OARROW_BEVEL_ENABLE           = 4001,
        OARROW_BEVEL_RATIO            = 4002,
        OARROW_BEVEL_SUBDIVISIONS     = 4003
    };

The enumerators become the constructors of `Enumerator` (in declaration order),
their spelling becomes `Enumerator.name`, and the value bound to each becomes
`Enumerator.code`.  C enumerators have type `int`; codes are modelled as `Int`,
and the 32-bit range is stated explicitly where it matters.
-/

namespace OarrowH

/-! ## Definitions -/

/-- The twelve enumerators of the anonymous enum of `oarrow.h`, in declaration order. -/
inductive Enumerator where
  | Oarrow
  | OARROW_LENGTH
  | OARROW_ROTATION_SEGMENTS
  | OARROW_BASE
  | OARROW_BASE_RADIUS
  | OARROW_TIP
  | OARROW_TIP_RADIUS
  | OARROW_TIP_LENGTH
  | OARROW_BEVEL
  | OARROW_BEVEL_ENABLE
  | OARROW_BEVEL_RATIO
  | OARROW_BEVEL_SUBDIVISIONS
  deriving DecidableEq, Repr, Fintype

open Enumerator

/-- The symbolic name of an enumerator, spelled as in `oarrow.h`. -/
def Enumerator.name : Enumerator → String
  | Oarrow => "Oarrow"
  | OARROW_LENGTH => "OARROW_LENGTH"
  | OARROW_ROTATION_SEGMENTS => "OARROW_ROTATION_SEGMENTS"
  | OARROW_BASE => "OARROW_BASE"
  | OARROW_BASE_RADIUS => "OARROW_BASE_RADIUS"
  | OARROW_TIP => "OARROW_TIP"
  | OARROW_TIP_RADIUS => "OARROW_TIP_RADIUS"
  | OARROW_TIP_LENGTH => "OARROW_TIP_LENGTH"
  | OARROW_BEVEL => "OARROW_BEVEL"
  | OARROW_BEVEL_ENABLE => "OARROW_BEVEL_ENABLE"
  | OARROW_BEVEL_RATIO => "OARROW_BEVEL_RATIO"
  | OARROW_BEVEL_SUBDIVISIONS => "OARROW_BEVEL_SUBDIVISIONS"

/-- The integer value the enum binds to an enumerator (`oarrow.h`, lines 6 to 17). -/
def Enumerator.code : Enumerator → Int
  | Oarrow => 1062186
  | OARROW_LENGTH => 1000
  | OARROW_ROTATION_SEGMENTS => 1001
  | OARROW_BASE => 2000
  | OARROW_BASE_RADIUS => 2001
  | OARROW_TIP => 3000
  | OARROW_TIP_RADIUS => 3001
  | OARROW_TIP_LENGTH => 3002
  | OARROW_BEVEL => 4000
  | OARROW_BEVEL_ENABLE => 4001
  | OARROW_BEVEL_RATIO => 4002
  | OARROW_BEVEL_SUBDIVISIONS => 4003

/-- All enumerators of the enum, listed in the order the header declares them. -/
def enumerators : List Enumerator :=
  [ Oarrow, OARROW_LENGTH, OARROW_ROTATION_SEGMENTS, OARROW_BASE, OARROW_BASE_RADIUS,
    OARROW_TIP, OARROW_TIP_RADIUS, OARROW_TIP_LENGTH, OARROW_BEVEL, OARROW_BEVEL_ENABLE,
    OARROW_BEVEL_RATIO, OARROW_BEVEL_SUBDIVISIONS ]

/-- The logical groups of the registry: the root type tag, the shape-level
parameters, and the base, tip and bevel sub-objects. -/
inductive Group where
  | root
  | shape
  | base
  | tip
  | bevel
  deriving DecidableEq, Repr, Fintype

/-- Whether the spelling of an enumerator begins with the given text. -/
def Enumerator.startsWith (e : Enumerator) (p : String) : Bool :=
  p.data.isPrefixOf e.name.data

/-- The group of an enumerator, read off its spelling in the header: the
`OARROW_BASE*`, `OARROW_TIP*` and `OARROW_BEVEL*` families, the remaining
`OARROW_*` parameters (length and rotation segments), and the root tag `Oarrow`. -/
def Enumerator.group (e : Enumerator) : Group :=
  if e.startsWith "OARROW_BASE" then Group.base
  else if e.startsWith "OARROW_TIP" then Group.tip
  else if e.startsWith "OARROW_BEVEL" then Group.bevel
  else if e.startsWith "OARROW_" then Group.shape
  else Group.root

/-- The enumerators of a group, in declaration order. -/
def members (g : Group) : List Enumerator :=
  enumerators.filter (fun e => decide (e.group = g))

/-- The codes of a group, in declaration order. -/
def groupCodes (g : Group) : List Int :=
  (members g).map Enumerator.code

/-- The base code of a group: the code of the first enumerator the header
declares for it (`0` only for a group without enumerators; there is none). -/
def baseCode (g : Group) : Int :=
  (groupCodes g).headD 0

/-- Lower end of the numeric band that the specification declares for a group
(stated from the specification, to be compared with the codes of the header). -/
def specBandLo : Group → Int
  | Group.root => 1062186
  | Group.shape => 1000
  | Group.base => 2000
  | Group.tip => 3000
  | Group.bevel => 4000

/-- Upper end of the numeric band that the specification declares for a group
(stated from the specification, to be compared with the codes of the header). -/
def specBandHi : Group → Int
  | Group.root => 1062186
  | Group.shape => 1001
  | Group.base => 2001
  | Group.tip => 3002
  | Group.bevel => 4003

/-- Membership of an integer in the band the specification declares for a group. -/
def inSpecBand (g : Group) (n : Int) : Prop :=
  specBandLo g ≤ n ∧ n ≤ specBandHi g

instance (g : Group) (n : Int) : Decidable (inSpecBand g n) :=
  inferInstanceAs (Decidable (specBandLo g ≤ n ∧ n ≤ specBandHi g))

/-- Modelled from the spec: the reverse lookup table "built by the implementer",
which `oarrow.h` does not contain.  It lists the twelve (code, name) pairs of the
enum, one for each enumerator, in declaration order. -/
def reverseTable : List (Int × Enumerator) :=
  enumerators.map (fun e => (e.code, e))

/-- Encoding a symbolic name: the code the enum binds to it. -/
def encode (e : Enumerator) : Int :=
  e.code

/-- Modelled from the spec: decoding through the reverse lookup table, returning
the name stored for a code, if the table has an entry for it. -/
def decode (c : Int) : Option Enumerator :=
  reverseTable.lookup c

/-! ## Auxiliary lemmas -/

/-- The declaration-order list `enumerators` lists every enumerator. -/
theorem mem_enumerators (e : Enumerator) : e ∈ enumerators := by
  cases e <;> decide

/-- The group computed from the spelling, tabulated for each enumerator. -/
theorem group_table :
    Enumerator.group Oarrow = Group.root ∧
    Enumerator.group OARROW_LENGTH = Group.shape ∧
    Enumerator.group OARROW_ROTATION_SEGMENTS = Group.shape ∧
    Enumerator.group OARROW_BASE = Group.base ∧
    Enumerator.group OARROW_BASE_RADIUS = Group.base ∧
    Enumerator.group OARROW_TIP = Group.tip ∧
    Enumerator.group OARROW_TIP_RADIUS = Group.tip ∧
    Enumerator.group OARROW_TIP_LENGTH = Group.tip ∧
    Enumerator.group OARROW_BEVEL = Group.bevel ∧
    Enumerator.group OARROW_BEVEL_ENABLE = Group.bevel ∧
    Enumerator.group OARROW_BEVEL_RATIO = Group.bevel ∧
    Enumerator.group OARROW_BEVEL_SUBDIVISIONS = Group.bevel := by
  decide

/-- The spellings of the twelve enumerators are pairwise different. -/
theorem name_injective : Function.Injective Enumerator.name := by
  intro a b
  cases a <;> cases b <;> decide

/-- A hit in a table of pairs `(f x, x)` returns an entry whose key is the one asked for. -/
theorem lookup_pairs_sound (f : Enumerator → Int) (l : List Enumerator) (c : Int)
    (e : Enumerator) (h : (l.map (fun x => (f x, x))).lookup c = some e) : f e = c := by
  induction l with
  | nil => simp at h
  | cons x xs ih =>
    by_cases hc : c = f x
    · subst hc
      simp [List.lookup] at h
      rw [h]
    · have hne : (c == f x) = false := by simpa using hc
      simp only [List.map_cons, List.lookup, hne] at h
      exact ih h

/-! ## The enum binds each name to its listed code -/

/-- Claim C1: the enum of `oarrow.h` binds each of the twelve symbolic names to
exactly the code of the table: `Oarrow` is 1062186, `OARROW_LENGTH` 1000,
`OARROW_ROTATION_SEGMENTS` 1001, `OARROW_BASE` 2000, `OARROW_BASE_RADIUS` 2001,
`OARROW_TIP` 3000, `OARROW_TIP_RADIUS` 3001, `OARROW_TIP_LENGTH` 3002,
`OARROW_BEVEL` 4000, `OARROW_BEVEL_ENABLE` 4001, `OARROW_BEVEL_RATIO` 4002 and
`OARROW_BEVEL_SUBDIVISIONS` 4003. -/
theorem C1_enum_binds_listed_codes :
    Enumerator.code Oarrow = 1062186 ∧
    Enumerator.code OARROW_LENGTH = 1000 ∧
    Enumerator.code OARROW_ROTATION_SEGMENTS = 1001 ∧
    Enumerator.code OARROW_BASE = 2000 ∧
    Enumerator.code OARROW_BASE_RADIUS = 2001 ∧
    Enumerator.code OARROW_TIP = 3000 ∧
    Enumerator.code OARROW_TIP_RADIUS = 3001 ∧
    Enumerator.code OARROW_TIP_LENGTH = 3002 ∧
    Enumerator.code OARROW_BEVEL = 4000 ∧
    Enumerator.code OARROW_BEVEL_ENABLE = 4001 ∧
    Enumerator.code OARROW_BEVEL_RATIO = 4002 ∧
    Enumerator.code OARROW_BEVEL_SUBDIVISIONS = 4003 :=
  ⟨rfl, rfl, rfl, rfl, rfl, rfl, rfl, rfl, rfl, rfl, rfl, rfl⟩

/-! ## Uniqueness of the codes -/

/-- Claim C2: distinct symbolic names of the enum have different codes, that is,
the name-to-code map over the twelve enumerators is injective. -/
theorem C2_distinct_names_distinct_codes :
    ∀ a b : Enumerator, a ≠ b → Enumerator.code a ≠ Enumerator.code b := by
  intro a b
  cases a <;> cases b <;> decide

/-- Claim C2 at the enumerators `OARROW_BASE_RADIUS` and `OARROW_TIP_RADIUS`. -/
theorem C2_distinct_names_distinct_codes_witness :
    OARROW_BASE_RADIUS ≠ OARROW_TIP_RADIUS ∧
    Enumerator.code OARROW_BASE_RADIUS ≠ Enumerator.code OARROW_TIP_RADIUS :=
  ⟨by decide,
   C2_distinct_names_distinct_codes OARROW_BASE_RADIUS OARROW_TIP_RADIUS (by decide)⟩

/-! ## Codes lie in the band of their group -/

/-- Claim C3: every enumerator's code lies in the numeric band of its group.
The shape-level parameters `OARROW_LENGTH` and `OARROW_ROTATION_SEGMENTS` have a
code in {1000, 1001}, every `OARROW_BASE*` enumerator a code in [2000, 2001],
every `OARROW_TIP*` enumerator a code in [3000, 3002], every `OARROW_BEVEL*`
enumerator a code in [4000, 4003], and the root tag `Oarrow` is 1062186; in
short the code of `e` is in the band declared for the group of `e`. -/
theorem C3_codes_within_group_bands (e : Enumerator) :
    (e = OARROW_LENGTH ∨ e = OARROW_ROTATION_SEGMENTS →
      Enumerator.code e = 1000 ∨ Enumerator.code e = 1001) ∧
    (e.startsWith "OARROW_BASE" = true →
      2000 ≤ Enumerator.code e ∧ Enumerator.code e ≤ 2001) ∧
    (e.startsWith "OARROW_TIP" = true →
      3000 ≤ Enumerator.code e ∧ Enumerator.code e ≤ 3002) ∧
    (e.startsWith "OARROW_BEVEL" = true →
      4000 ≤ Enumerator.code e ∧ Enumerator.code e ≤ 4003) ∧
    (e = Oarrow → Enumerator.code e = 1062186) ∧
    inSpecBand e.group e.code := by
  cases e <;> decide

/-- Claim C3 at one enumerator of each group: `OARROW_ROTATION_SEGMENTS`,
`OARROW_BASE_RADIUS`, `OARROW_TIP_LENGTH`, `OARROW_BEVEL_SUBDIVISIONS`, `Oarrow`. -/
theorem C3_codes_within_group_bands_witness :
    (Enumerator.code OARROW_ROTATION_SEGMENTS = 1000 ∨
      Enumerator.code OARROW_ROTATION_SEGMENTS = 1001) ∧
    (2000 ≤ Enumerator.code OARROW_BASE_RADIUS ∧ Enumerator.code OARROW_BASE_RADIUS ≤ 2001) ∧
    (3000 ≤ Enumerator.code OARROW_TIP_LENGTH ∧ Enumerator.code OARROW_TIP_LENGTH ≤ 3002) ∧
    (4000 ≤ Enumerator.code OARROW_BEVEL_SUBDIVISIONS ∧
      Enumerator.code OARROW_BEVEL_SUBDIVISIONS ≤ 4003) ∧
    Enumerator.code Oarrow = 1062186 :=
  ⟨(C3_codes_within_group_bands OARROW_ROTATION_SEGMENTS).1 (Or.inr rfl),
   (C3_codes_within_group_bands OARROW_BASE_RADIUS).2.1 (by decide),
   (C3_codes_within_group_bands OARROW_TIP_LENGTH).2.2.1 (by decide),
   (C3_codes_within_group_bands OARROW_BEVEL_SUBDIVISIONS).2.2.2.1 (by decide),
   (C3_codes_within_group_bands Oarrow).2.2.2.2.1 rfl⟩

/-! ## Round trip through the reverse lookup table -/

/-- Claim C4: for each of the twelve enumerators, encoding the name to its code
and decoding the code through the reverse lookup table recovers the name; and
whenever the reverse table maps a code to a name, encoding that name gives back
the code. -/
theorem C4_encode_decode_round_trip :
    (∀ e : Enumerator, decode (encode e) = some e) ∧
    (∀ (c : Int) (e : Enumerator), decode c = some e → encode e = c) := by
  refine ⟨fun e => ?_, fun c e h => ?_⟩
  · cases e <;> decide
  · exact lookup_pairs_sound Enumerator.code enumerators c e h

/-- Claim C4 at the code 4002, which the reverse table maps to `OARROW_BEVEL_RATIO`. -/
theorem C4_encode_decode_round_trip_witness :
    decode 4002 = some OARROW_BEVEL_RATIO ∧ encode OARROW_BEVEL_RATIO = 4002 :=
  ⟨by decide, C4_encode_decode_round_trip.2 4002 OARROW_BEVEL_RATIO (by decide)⟩

/-! ## Classifying an identifier by its numeric band -/

/-- Claim C5: the group of an identifier is determined by its code alone.  The
bands of the five groups are pairwise disjoint (an integer lies in the band of
at most one group), and for every enumerator the quotient of its code by 1000 is
1 exactly for the shape-level parameters, 2 exactly for the base group, 3 exactly
for the tip group, 4 exactly for the bevel group and 1062 exactly for the root
tag `Oarrow`; hence two enumerators are in the same group if and only if their
codes have the same quotient by 1000. -/
theorem C5_group_determined_by_code :
    (∀ (g h : Group) (n : Int), inSpecBand g n → inSpecBand h n → g = h) ∧
    (∀ e : Enumerator,
      (Enumerator.code e / 1000 = 1 ↔ e.group = Group.shape) ∧
      (Enumerator.code e / 1000 = 2 ↔ e.group = Group.base) ∧
      (Enumerator.code e / 1000 = 3 ↔ e.group = Group.tip) ∧
      (Enumerator.code e / 1000 = 4 ↔ e.group = Group.bevel) ∧
      (Enumerator.code e / 1000 = 1062 ↔ e.group = Group.root) ∧
      (Enumerator.code e / 1000 = 1062 ↔ e = Oarrow)) ∧
    (∀ a b : Enumerator,
      a.group = b.group ↔ Enumerator.code a / 1000 = Enumerator.code b / 1000) := by
  refine ⟨?_, ?_, ?_⟩
  · intro g h n hg hh
    cases g <;> cases h <;> simp only [inSpecBand, specBandLo, specBandHi] at hg hh <;>
      first | rfl | omega
  · intro e
    cases e <;> decide
  · intro a b
    cases a <;> cases b <;> decide

/-- Claim C5 at the integer 3001 (in the tip band only) and at the enumerators
`OARROW_TIP` and `OARROW_TIP_LENGTH` (same group, same quotient 3). -/
theorem C5_group_determined_by_code_witness :
    (inSpecBand Group.tip 3001 ∧ Group.tip = Group.tip) ∧
    Enumerator.code OARROW_TIP / 1000 = Enumerator.code OARROW_TIP_LENGTH / 1000 :=
  ⟨⟨by decide, C5_group_determined_by_code.1 Group.tip Group.tip 3001 (by decide) (by decide)⟩,
   (C5_group_determined_by_code.2.2 OARROW_TIP OARROW_TIP_LENGTH).1 (by decide)⟩

/-! ## Base codes on the 1000s boundaries -/

/-- Claim C6: `OARROW_LENGTH`, `OARROW_BASE`, `OARROW_TIP` and `OARROW_BEVEL`
are the multiples 1000, 2000, 3000 and 4000 of 1000 and are the base codes of
their groups; a base code is the smallest code of its group; within every group
the codes are the consecutive integers starting at the base code; and every
other code of a parameter group is the base code plus an offset from 1 to 3. -/
theorem C6_base_codes_and_consecutive_members :
    (Enumerator.code OARROW_LENGTH = 1 * 1000 ∧ Enumerator.code OARROW_BASE = 2 * 1000 ∧
      Enumerator.code OARROW_TIP = 3 * 1000 ∧ Enumerator.code OARROW_BEVEL = 4 * 1000) ∧
    (baseCode Group.shape = Enumerator.code OARROW_LENGTH ∧
      baseCode Group.base = Enumerator.code OARROW_BASE ∧
      baseCode Group.tip = Enumerator.code OARROW_TIP ∧
      baseCode Group.bevel = Enumerator.code OARROW_BEVEL) ∧
    (∀ e : Enumerator, baseCode e.group ≤ Enumerator.code e) ∧
    (∀ g : Group, groupCodes g =
      (List.range (groupCodes g).length).map (fun i => baseCode g + (i : Int))) ∧
    (∀ e : Enumerator, e.group ≠ Group.root → Enumerator.code e ≠ baseCode e.group →
      ∃ k : Int, 1 ≤ k ∧ k ≤ 3 ∧ Enumerator.code e = baseCode e.group + k) := by
  refine ⟨by decide, by decide, ?_, ?_, ?_⟩
  · intro e
    cases e <;> decide
  · intro g
    cases g <;> decide
  · intro e hroot hbase
    refine ⟨Enumerator.code e - baseCode e.group, ?_, ?_, by ring⟩
    · cases e <;> first | decide | exact absurd rfl hbase
    · cases e <;> decide

/-- Claim C6 at the sub-parameter `OARROW_BEVEL_SUBDIVISIONS`, whose code is the
bevel base code 4000 plus an offset between 1 and 3. -/
theorem C6_base_codes_and_consecutive_members_witness :
    ∃ k : Int, 1 ≤ k ∧ k ≤ 3 ∧
      Enumerator.code OARROW_BEVEL_SUBDIVISIONS = baseCode Group.bevel + k :=
  C6_base_codes_and_consecutive_members.2.2.2.2 OARROW_BEVEL_SUBDIVISIONS
    (by decide) (by decide)

/-! ## The registry is exactly the declared bands -/

/-- Claim C7: the enum has exactly twelve enumerators, the set of their codes is
{1062186} ∪ {1000, 1001} ∪ {2000, 2001} ∪ {3000, 3001, 3002} ∪
{4000, 4001, 4002, 4003}, and an integer is the code of some enumerator if and
only if it is 1062186 or lies in one of the four declared bands. -/
theorem C7_registry_is_exactly_the_bands :
    (enumerators.length = 12 ∧ enumerators.Nodup ∧ (∀ e : Enumerator, e ∈ enumerators) ∧
      Fintype.card Enumerator = 12) ∧
    (enumerators.map Enumerator.code).toFinset =
      ({1062186} ∪ {1000, 1001} ∪ {2000, 2001} ∪ {3000, 3001, 3002} ∪
        {4000, 4001, 4002, 4003} : Finset Int) ∧
    (∀ n : Int, (∃ e : Enumerator, Enumerator.code e = n) ↔
      (n = 1062186 ∨ (1000 ≤ n ∧ n ≤ 1001) ∨ (2000 ≤ n ∧ n ≤ 2001) ∨
        (3000 ≤ n ∧ n ≤ 3002) ∨ (4000 ≤ n ∧ n ≤ 4003))) ∧
    (∀ n : Int, (∃ e : Enumerator, Enumerator.code e = n) ↔ ∃ g : Group, inSpecBand g n) := by
  have key : ∀ n : Int, (∃ e : Enumerator, Enumerator.code e = n) ↔
      (n = 1062186 ∨ (1000 ≤ n ∧ n ≤ 1001) ∨ (2000 ≤ n ∧ n ≤ 2001) ∨
        (3000 ≤ n ∧ n ≤ 3002) ∨ (4000 ≤ n ∧ n ≤ 4003)) := by
    intro n
    constructor
    · rintro ⟨e, rfl⟩
      cases e <;> decide
    · intro h
      have hn : n = 1062186 ∨ n = 1000 ∨ n = 1001 ∨ n = 2000 ∨ n = 2001 ∨ n = 3000 ∨
          n = 3001 ∨ n = 3002 ∨ n = 4000 ∨ n = 4001 ∨ n = 4002 ∨ n = 4003 := by omega
      rcases hn with h | h | h | h | h | h | h | h | h | h | h | h
      · exact ⟨Oarrow, h.symm⟩
      · exact ⟨OARROW_LENGTH, h.symm⟩
      · exact ⟨OARROW_ROTATION_SEGMENTS, h.symm⟩
      · exact ⟨OARROW_BASE, h.symm⟩
      · exact ⟨OARROW_BASE_RADIUS, h.symm⟩
      · exact ⟨OARROW_TIP, h.symm⟩
      · exact ⟨OARROW_TIP_RADIUS, h.symm⟩
      · exact ⟨OARROW_TIP_LENGTH, h.symm⟩
      · exact ⟨OARROW_BEVEL, h.symm⟩
      · exact ⟨OARROW_BEVEL_ENABLE, h.symm⟩
      · exact ⟨ OARROW_BEVEL_RATIO, h.symm⟩
      · exact ⟨OARROW_BEVEL_SUBDIVISIONS, h.symm⟩
  refine ⟨⟨rfl, by decide, mem_enumerators, by decide⟩, by decide, key, ?_⟩
  intro n
  rw [key n]
  constructor
  · intro h
    rcases h with h | h | h | h | h
    · exact ⟨Group.root, by simp only [inSpecBand, specBandLo, specBandHi]; omega⟩
    · exact ⟨Group.shape, h⟩
    · exact ⟨Group.base, h⟩
    · exact ⟨Group.tip, h⟩
    · exact ⟨Group.bevel, h⟩
  · rintro ⟨g, hg⟩
    cases g <;> simp only [inSpecBand, specBandLo, specBandHi] at hg <;> omega

/-! ## Codes fit a 32-bit int -/

/-- Claim C8: every enumerator's code is strictly positive and below 2^31, so
it is unchanged by reduction modulo 2^32, and the root tag `Oarrow` is strictly
greater than every parameter code. -/
theorem C8_codes_positive_and_fit_int32 :
    (∀ e : Enumerator, 0 < Enumerator.code e ∧ Enumerator.code e < 2 ^ 31 ∧
      Enumerator.code e % 2 ^ 32 = Enumerator.code e) ∧
    (∀ e : Enumerator, e ≠ Oarrow → Enumerator.code e < Enumerator.code Oarrow) := by
  constructor
  · intro e
    cases e <;> decide
  · intro e
    cases e <;> decide

/-- Claim C8 at the parameter `OARROW_BEVEL_SUBDIVISIONS`, the largest parameter code. -/
theorem C8_codes_positive_and_fit_int32_witness :
    OARROW_BEVEL_SUBDIVISIONS ≠ Oarrow ∧
    Enumerator.code OARROW_BEVEL_SUBDIVISIONS < Enumerator.code Oarrow :=
  ⟨by decide, C8_codes_positive_and_fit_int32.2 OARROW_BEVEL_SUBDIVISIONS (by decide)⟩

end OarrowH
